import Mathlib

/-!
Verification of the request-dispatch core of `coletdjnz/yt-dlp-dev`:
a shallow embedding of `yt_dlp/networking/common.py` (Request, the
RHManager dispatch, the cookie file codec) together with theorems that
settle the specification claims about it.
-/

set_option maxHeartbeats 1000000

/-! ## Case-insensitive header mappings and plain string dicts -/

/-- Modelled from the spec: `CaseInsensitiveDict` is imported by
`yt_dlp/networking/common.py` from `yt_dlp.utils`, whose definition is not
under `src/`.  The spec describes it as a "case-insensitive ordered mapping,
keys unique ignoring case"; construction from several mappings merges them in
order with later entries taking precedence, and lookup / deletion ignore
case. -/
structure CaseInsensitiveDict where
  entries : List (String × String)
deriving DecidableEq, Repr

/-- Character-wise lowercasing, the semantics of Python `str.lower` on the
ASCII keys the code uses. -/
def strLower (s : String) : String := String.mk (s.toList.map Char.toLower)

/-- Case-insensitive key comparison used by `CaseInsensitiveDict`. -/
def ciMatch (a b : String) : Bool := a.toList.map Char.toLower == b.toList.map Char.toLower

/-- Case-insensitive lookup (`d.get(key)` / `d[key]`). -/
def CaseInsensitiveDict.get (d : CaseInsensitiveDict) (k : String) : Option String :=
  (d.entries.find? (fun p => ciMatch p.1 k)).map (·.2)

/-- Case-insensitive update (`d[key] = value`): an existing entry (ignoring
case) is replaced in place, otherwise the pair is appended. -/
def CaseInsensitiveDict.set (d : CaseInsensitiveDict) (k v : String) : CaseInsensitiveDict :=
  if d.entries.any (fun p => ciMatch p.1 k) then
    ⟨d.entries.map (fun p => if ciMatch p.1 k then (k, v) else p)⟩
  else ⟨d.entries ++ [(k, v)]⟩

/-- Case-insensitive deletion (`del d[key]`). -/
def CaseInsensitiveDict.erase (d : CaseInsensitiveDict) (k : String) : CaseInsensitiveDict :=
  ⟨d.entries.filter (fun p => !ciMatch p.1 k)⟩

/-- Build a `CaseInsensitiveDict` from a pair list by successive updates. -/
def CaseInsensitiveDict.ofList (l : List (String × String)) : CaseInsensitiveDict :=
  l.foldl (fun d p => d.set p.1 p.2) ⟨[]⟩

/-- `CaseInsensitiveDict(a, b)`: entries of `a` updated by those of `b`
(later mapping takes precedence). -/
def CaseInsensitiveDict.merge (a b : CaseInsensitiveDict) : CaseInsensitiveDict :=
  b.entries.foldl (fun d p => d.set p.1 p.2) a

/-- Python truthiness of an optional string (absent or empty is falsy). -/
def truthyStr : Option String → Bool
  | some s => s ≠ ""
  | none => false

/-- Proxy maps: a Python `dict` from scheme strings to proxy urls, where a
value can be `None`.  Insertion-ordered; updating an existing key keeps its
position. -/
abbrev SDict := List (String × Option String)

/-- `d[key] = value` on a proxy dict. -/
def sdictSet (d : SDict) (k : String) (v : Option String) : SDict :=
  if d.any (fun p => p.1 == k) then d.map (fun p => if p.1 == k then (k, v) else p)
  else d ++ [(k, v)]

/-- Python `{**a, **b}` / `a.update(b)` on proxy dicts. -/
def sdictUpdate (a b : SDict) : SDict := b.foldl (fun d p => sdictSet d p.1 p.2) a

/-! ## Request (common.py lines 38-115) -/

/-- Parameter standing for the url normalisation pipeline
`extract_basic_auth(escape_url(sanitize_url(url)))` applied by
`Request.__init__` (`yt_dlp/utils.py` lines 647-676 and 1937-1946): regex typo
fixes, RFC 3986 percent escaping, IDNA host encoding and base64 basic-auth
extraction.  `norm` returns the rewritten url together with the optional
`Basic ...` authorization header value.  Theorems quantify over the pipeline
and state the facts they need about it as explicit hypotheses. -/
structure UrlPipeline where
  norm : String → String × Option String

/-- The pipeline acting as the identity and finding no embedded credentials,
which is its behaviour on already-normalised urls without userinfo. -/
def idUrlPipeline : UrlPipeline := ⟨fun u => (u, none)⟩

/-- Embedding of `Request` (common.py lines 38-115).  `storeData` and
`storeHeaders` model the wrapped `urllib.request.Request` object
(`self.__request_store`): its `data` attribute and its private header
dictionary.  The constructor passes only url, data and method to the store, so
`storeHeaders` starts empty; the visible headers live in `self._headers`
(field `headers`).  The timeout is kept as an optional number (the claims
never exercise fractional timeout arithmetic). -/
structure Request where
  url : String
  storeData : Option String
  storeHeaders : List (String × String)
  headers : CaseInsensitiveDict
  proxies : SDict
  compression : Bool
  storedMethod : Option String
  timeout : Option Nat
deriving DecidableEq, Repr

/-- Embedding of `Request.__init__` (lines 44-60): normalise the url, store
data and method in the wrapped urllib request, wrap the headers in a
`CaseInsensitiveDict`, add an `Authorization` header when the url carried
basic-auth credentials, and keep proxies (`proxies or {}` leaves a list
unchanged), compression and timeout. -/
def mkRequest (P : UrlPipeline) (url : String) (data : Option String)
    (headers : List (String × String)) (proxies : SDict) (compression : Bool)
    (method : Option String) (timeout : Option Nat) : Request :=
  let u := (P.norm url).1
  let auth := (P.norm url).2
  let h0 := CaseInsensitiveDict.ofList headers
  let h := match auth with
    | some a => h0.set "Authorization" a
    | none => h0
  ⟨u, data, [], h, proxies, compression, method, timeout⟩

/-- The `Request.data` property getter (lines 70-72): the wrapped store's
data. -/
def Request.data (r : Request) : Option String := r.storeData

/-- Embedding of the `Request.data` property setter (lines 74-76): it assigns
to the wrapped urllib store's `data` attribute, whose CPython setter removes a
`Content-length` entry from the store's own header dictionary when the value
changes (CPython 3.8 `urllib/request.py`).  The yt-dlp `Request`'s own
`_headers` mapping is not touched. -/
def Request.setData (r : Request) (d : Option String) : Request :=
  if d ≠ r.storeData then
    { r with storeData := d,
             storeHeaders := r.storeHeaders.filter (fun p => !(p.1 == "Content-length")) }
  else r

/-- The observable `Request.method` property (lines 88-90, via urllib
`get_method`): the stored method if set, else `POST` when a body is present
and `GET` otherwise. -/
def Request.method (r : Request) : String :=
  match r.storedMethod with
  | some m => m
  | none => if r.storeData.isSome then "POST" else "GET"

/-- Embedding of `Request.copy` (lines 92-94): re-invoke the constructor with
six positional arguments — url, data, copied headers, copied proxies,
compression and the observable method — leaving the seventh parameter
(`timeout`) at its default `None`. -/
def Request.copy (P : UrlPipeline) (r : Request) : Request :=
  mkRequest P r.url r.storeData r.headers.entries r.proxies r.compression
    (some (Request.method r)) none

/-! ## Scheme extraction and handler capability (common.py lines 210-227) -/

/-- Characters allowed in a url scheme by `urllib.parse` (`scheme_chars`). -/
def schemeChar (c : Char) : Bool := c.isAlphanum || c == '+' || c == '-' || c == '.'

/-- Embedding of scheme extraction by `urllib.parse.urlparse` (CPython 3.8
`urlsplit`): the text before the first `:` is the (lowercased) scheme when it
is nonempty, consists only of scheme characters, and the remainder is not a
pure digit string (the port-number guard); otherwise the scheme is empty. -/
def urlScheme (url : String) : String :=
  match url.toList.splitOn ':' with
  | [] => ""
  | [_] => ""
  | s :: rest =>
    if !s.isEmpty && s.all schemeChar then
      let r := List.intercalate [':'] rest
      if r.isEmpty || r.any (fun c => !c.isDigit) then String.mk (s.map Char.toLower) else ""
    else ""

/-- Embedding of `RequestHandler._is_supported_scheme` / `can_handle`
(lines 217-223): membership of the request url's lowercased scheme in the
handler's `SUPPORTED_SCHEMES`.  (The source's `... in schemes or []` only
affects truthiness, not the truth value the dispatch test observes.) -/
def canHandleScheme (schemes : List String) (r : Request) : Bool :=
  schemes.contains (strLower (urlScheme r.url))

/-! ## Exceptions (yt_dlp/networking/exceptions.py) -/

/-- Exception classes relevant to dispatch: `RequestError` is a
`YoutubeDLError`, with `UnsupportedRequest`, `TransportError` (and
`HTTPError`, `IncompleteRead`, `SSLError`, `ProxyError`) below
`RequestError`; `ydlError` is a `YoutubeDLError` outside the `RequestError`
subtree; `pythonError` stands for any exception outside the `YoutubeDLError`
hierarchy. -/
inductive ExnKind
  | unsupportedRequest
  | transportError
  | httpError
  | requestError
  | ydlError
  | pythonError
deriving DecidableEq, Repr

/-- `isinstance(e, RequestError)`. -/
def ExnKind.isRequestError : ExnKind → Bool
  | .unsupportedRequest | .transportError | .httpError | .requestError => true
  | .ydlError | .pythonError => false

/-- `isinstance(e, YoutubeDLError)`. -/
def ExnKind.isYoutubeDLError : ExnKind → Bool
  | .pythonError => false
  | _ => true

/-- An exception value: its class, its message and the `handler` attribute
that `RequestError.__init__` initialises and `urlopen` overwrites when
tagging. -/
structure Exn where
  kind : ExnKind
  msg : String
  handler : Option Nat
deriving DecidableEq, Repr

/-! ## Handlers and the dispatch loop (common.py lines 271-358) -/

/-- Opaque stand-in for an `HTTPResponse` value: the dispatch claims treat
responses as tokens (`urlopen` only tests them for truthiness and returns
them). -/
structure Response where
  tag : Nat
deriving DecidableEq, Repr

/-- What a handler's `handle` call does: return a (possibly `None`, i.e.
falsy) response, or raise an exception. -/
inductive HandleOutcome
  | returned (res : Option Response)
  | raised (e : Exn)
deriving DecidableEq, Repr

/-- A registered handler instance as the dispatch loop sees it: `can_handle`
plus `handle`.  Python passes the request object by reference, so `handle`
also returns the request's state after the call (modelling in-place
mutation).  `id` models object identity and `name` models
`type(handler).__name__`. -/
structure Handler where
  id : Nat
  name : String
  canHandle : Request → Bool
  handle : Request → HandleOutcome × Request

/-- A handler whose `can_handle` is the inherited scheme test of
`RequestHandler` (lines 217-223) for a concrete `SUPPORTED_SCHEMES` list. -/
def schemeHandler (i : Nat) (n : String) (schemes : List String)
    (h : Request → HandleOutcome × Request) : Handler :=
  ⟨i, n, canHandleScheme schemes, h⟩

/-- Warnings `urlopen` sends to `report_warning` during dispatch. -/
inductive DispatchWarning
  | unexpectedError (handlerId : Nat) (e : Exn)
  | emptyResponse (handlerId : Nat)
deriving DecidableEq, Repr

deriving instance DecidableEq for Except

/-- Result of a dispatch: the returned response or raised exception, the list
of `(handler id, request state passed to handle)` attempts in order, and the
warnings logged. -/
structure DispatchResult where
  outcome : Except Exn Response
  attempts : List (Nat × Request)
  warnings : List DispatchWarning
deriving DecidableEq, Repr

/-- The dispatch loop of `RHManager.urlopen` (lines 338-358) over an already
normalised request: skip handlers whose `can_handle` is false; on a raised
exception, log a warning when it is not a `YoutubeDLError`, set its `handler`
attribute when it is a `RequestError`, and re-raise unconditionally; on a
falsy response, warn and continue with the request state left by the handler
(the same object is threaded through the loop); on a truthy response, return
it; raise the fixed exhaustion error when no handler remains. -/
def dispatchRun : List Handler → Request → DispatchResult
  | [], _ =>
    ⟨.error ⟨.ydlError, "No request handlers configured that could handle this request.", none⟩,
      [], []⟩
  | h :: rest, r =>
    if h.canHandle r then
      match h.handle r with
      | (.raised e, _) =>
        let tagged := if e.kind.isRequestError then { e with handler := some h.id } else e
        let ws : List DispatchWarning :=
          if e.kind.isYoutubeDLError then [] else [.unexpectedError h.id e]
        ⟨.error tagged, [(h.id, r)], ws⟩
      | (.returned none, r2) =>
        let t := dispatchRun rest r2
        ⟨t.outcome, (h.id, r) :: t.attempts, .emptyResponse h.id :: t.warnings⟩
      | (.returned (some res), _) => ⟨.ok res, [(h.id, r)], []⟩
    else dispatchRun rest r

/-- The configuration fields of `self.ydl.params` that `urlopen` reads. -/
structure YDLParams where
  httpHeaders : List (String × String)
  socketTimeout : Option Nat

/-- Embedding of `RHManager` state: the ordered handler list, the parameter
object and the default proxies computed at construction. -/
structure RHManager where
  handlers : List Handler
  params : YDLParams
  proxies : SDict

/-- Embedding of `RHManager.add_handler` (lines 289-291): append unless the
handler is already registered (membership by object identity, modelled
through `id`). -/
def addHandler (hs : List Handler) (h : Handler) : List Handler :=
  if hs.any (fun g => g.id == h.id) then hs else hs ++ [h]

/-- Python `x or y` on the optional timeout values (`None` and `0` are
falsy), with a numeric default. -/
def pyOrNat : Option Nat → Nat → Nat
  | some n, d => if n = 0 then d else n
  | none, d => d

/-- The normalisation `RHManager.urlopen` performs before dispatch
(lines 320-336): copy the request, merge the configured default headers
beneath its headers, consume the `Youtubedl-no-compression` signalling header
into the compression flag, merge the proxy maps (request entries win over
manager defaults), consume the `Ytdl-request-proxy` header into the proxy
map, map the `__noproxy__` sentinel to null, and coerce the timeout through
`request timeout or configured socket_timeout or 20`. -/
def normalizeRequest (P : UrlPipeline) (m : RHManager) (req : Request) : Request :=
  let r := Request.copy P req
  let r := { r with
    headers := CaseInsensitiveDict.merge
      (CaseInsensitiveDict.ofList m.params.httpHeaders) r.headers }
  let r :=
    if truthyStr (r.headers.get "Youtubedl-no-compression") then
      { r with compression := false,
               headers := r.headers.erase "Youtubedl-no-compression" }
    else r
  let r := { r with proxies := sdictUpdate m.proxies r.proxies }
  let r :=
    match r.headers.get "Ytdl-request-proxy" with
    | some p =>
      if p ≠ "" then
        { r with headers := r.headers.erase "Ytdl-request-proxy",
                 proxies := sdictSet (sdictSet r.proxies "http" (some p)) "https" (some p) }
      else r
    | none => r
  let r := { r with
    proxies := r.proxies.map
      (fun (p : String × Option String) =>
        if p.2 == some "__noproxy__" then (p.1, none) else p) }
  { r with timeout := some (pyOrNat r.timeout (pyOrNat m.params.socketTimeout 20)) }

/-- Embedding of `RHManager.urlopen` (lines 304-358) for a `Request`
argument: the empty-handler-list check, the normalisation, then the dispatch
loop over the reversed handler list.  (The `str` / legacy urllib coercions of
lines 310-316 and the `debug_printtraffic` trace are not exercised by the
claims.) -/
def urlopen (P : UrlPipeline) (m : RHManager) (req : Request) : DispatchResult :=
  if m.handlers.isEmpty then
    ⟨.error ⟨.ydlError, "No request handlers configured", none⟩, [], []⟩
  else dispatchRun m.handlers.reverse (normalizeRequest P m req)

/-! ## remove_handler (common.py lines 293-302) -/

/-- A handler object as `remove_handler` sees it: an instance identity and
its class. -/
structure HandlerObj where
  id : Nat
  cls : Nat
deriving DecidableEq, Repr

/-- The argument of `remove_handler`: a handler instance or a handler
class. -/
inductive HandlerArg
  | inst (x : HandlerObj)
  | cls (c : Nat)
deriving DecidableEq, Repr

/-- `isinstance(a, c)` for the values the finder can receive: an instance
belongs to class `c` iff its class is `c` (subclassing is not exercised by
the claims); a class object is an instance of `type`, never of a handler
class. -/
def pyIsInstance (a : HandlerArg) (c : Nat) : Bool :=
  match a with
  | .inst x => x.cls == c
  | .cls _ => false

/-- Python `a is b` identity on the values the finder can receive. -/
def pyIs (a b : HandlerArg) : Bool := a == b

/-- Embedding of `RHManager.remove_handler` (lines 293-302), faithfully
including the final line `[x for x in self.handlers if not finder(handler)]`:
the predicate is applied to the `handler` argument itself, not to the list
element `x`. -/
def removeHandler (hs : List HandlerObj) (handler : HandlerArg) : List HandlerObj :=
  let finder : HandlerArg → Bool :=
    match handler with
    | .cls c => fun a => pyIsInstance a c
    | .inst _ => fun a => pyIs a handler
  hs.filter (fun _x => !(finder handler))

/-- The documented behaviour of `remove_handler` (its docstring, lines
294-297): an instance argument removes exactly that instance, a class
argument removes all instances of the class. -/
def removeHandlerDocumented (hs : List HandlerObj) (handler : HandlerArg) : List HandlerObj :=
  let finder : HandlerObj → Bool :=
    match handler with
    | .cls c => fun x => pyIsInstance (.inst x) c
    | .inst y => fun x => pyIs (.inst x) (.inst y)
  hs.filter (fun x => !(finder x))

/-! ## Cookie file codec (common.py lines 361-473) -/

/-- Strings handled character by character, as the cookie codec needs. -/
abbrev Str := List Char

/-- The whitespace characters of Python `str.strip()`. -/
def isWsChar (c : Char) : Bool :=
  c == ' ' || c == '\t' || c == '\n' || c == '\r' || c == Char.ofNat 11 || c == Char.ofNat 12

/-- Python `str.strip()`: drop leading and trailing whitespace. -/
def stripWs (s : Str) : Str :=
  ((s.dropWhile isWsChar).reverse.dropWhile isWsChar).reverse

/-- Python `line.split('\t')`. -/
def tabSplit (s : Str) : List Str := s.splitOn '\t'

/-- Python `'\t'.join(fields)`. -/
def tabJoin (fs : List Str) : Str := List.intercalate ['\t'] fs

/-- The decimal digit characters. -/
def digitChar (d : Nat) : Char :=
  ['0', '1', '2', '3', '4', '5', '6', '7', '8', '9'].getD d '0'

/-- Decimal representation of a natural number, most significant digit
first (as Python `str` prints it). -/
def natToChars (n : Nat) : Str :=
  if _h : n < 10 then [digitChar n]
  else natToChars (n / 10) ++ [digitChar (n % 10)]
decreasing_by exact Nat.div_lt_self (by omega) (by omega)

/-- Python `str(e)` for an integer expiry. -/
def intToChars (e : Int) : Str :=
  if e < 0 then '-' :: natToChars e.natAbs else natToChars e.toNat

/-- Numeric value of a digit character. -/
def digitVal (c : Char) : Nat := c.toNat - 48

/-- Parse a digit string (most significant first). -/
def parseNatChars (s : Str) : Nat := s.foldl (fun a c => a * 10 + digitVal c) 0

/-- Python `str.isdigit()` (restricted to ASCII digits, the only ones the
codec produces). -/
def isDigits (s : Str) : Bool := !s.isEmpty && s.all Char.isDigit

/-- A cookie as the codec observes it: `http.cookiejar.Cookie` restricted to
the fields the Netscape file format reads and writes.  A `none` value models
Python `None` (the `Set-Cookie: foo` name-only form). -/
structure Cookie where
  domain : Str
  path : Str
  secure : Bool
  expires : Option Int
  name : Str
  value : Option Str
  discard : Bool
deriving DecidableEq, Repr

/-- `Cookie.is_expired(now)` (CPython `http.cookiejar`): expired iff the
expiry is set and `expires <= now`. -/
def Cookie.isExpired (c : Cookie) (now : Int) : Bool :=
  match c.expires with
  | some e => decide (e ≤ now)
  | none => false

/-- First line of `YoutubeDLCookieJar._HEADER` (lines 368-370). -/
def headerLine1 : Str := "# Netscape HTTP Cookie File".toList

/-- Second line of `YoutubeDLCookieJar._HEADER`. -/
def headerLine2 : Str := "# This file is generated by yt-dlp.  Do not edit.".toList

/-- One cookie line written by `YoutubeDLCookieJar.save` (lines 401-424):
domain, initial-dot flag, path, secure flag, expiry, then name and value —
with the name field left empty and the name written as the value for cookies
whose value is null. -/
def saveCookieLine (c : Cookie) : Str :=
  tabJoin [c.domain,
    if c.domain.head? == some '.' then "TRUE".toList else "FALSE".toList,
    c.path,
    if c.secure then "TRUE".toList else "FALSE".toList,
    (match c.expires with
     | some e => intToChars e
     | none => []),
    (match c.value with
     | some _ => c.name
     | none => []),
    (match c.value with
     | some v => v
     | none => c.name)]

/-- Embedding of `YoutubeDLCookieJar.save` (lines 375-424) as the written
file's lines: every stored session expiry (`None`) is first rewritten to `0`
(lines 389-391, over all cookies); then the header is written followed by one
line per cookie, skipping discard-on-close cookies unless `ignore_discard`
and expired cookies unless `ignore_expires`. -/
def jarSave (jar : List Cookie) (ignoreDiscard ignoreExpires : Bool) (now : Int) :
    List Str :=
  let jar2 := jar.map (fun c => if c.expires = none then { c with expires := some 0 } else c)
  headerLine1 :: headerLine2 ::
    (jar2.filter (fun c =>
      (ignoreDiscard || !c.discard) && (ignoreExpires || !c.isExpired now))).map saveCookieLine

/-- The `#HttpOnly_` domain marker (line 366). -/
def httpOnlyMarker : Str := "#HttpOnly_".toList

/-- Embedding of `prepare_line` inside `YoutubeDLCookieJar.load`
(lines 434-446): strip the `#HttpOnly_` marker, pass comments and blank
lines through, and otherwise demand exactly 7 tab-separated fields with a
digit (or empty) expiry; `none` models a `LoadError`, which `load` turns
into a warning and a dropped line. -/
def prepareLine (l : Str) : Option Str :=
  let l2 := if httpOnlyMarker.isPrefixOf l then l.drop httpOnlyMarker.length else l
  if l2.head? == some '#' || (stripWs l2).isEmpty then some l2
  else
    let fields := tabSplit l2
    if fields.length ≠ 7 then none
    else
      let expiresAt := fields.getD 4 []
      if !expiresAt.isEmpty && !isDigits expiresAt then none else some l2

/-- The `MozillaCookieJar.magic_re` test (CPython): the first line must
contain `#( Netscape)? HTTP Cookie File`. -/
def magicOk (l : Str) : Bool :=
  decide ("# Netscape HTTP Cookie File".toList <:+: l) ||
    decide ("# HTTP Cookie File".toList <:+: l)

/-- `CookieJar.set_cookie` as the stored cookie list observes it: replace
the entry with the same (domain, path, name) key, else append. -/
def setCookie (jar : List Cookie) (c : Cookie) : List Cookie :=
  if jar.any (fun d => d.domain == c.domain && d.path == c.path && d.name == c.name) then
    jar.map (fun d =>
      if d.domain == c.domain && d.path == c.path && d.name == c.name then c else d)
  else jar ++ [c]

/-- One line step of CPython 3.8 `MozillaCookieJar._really_load` (which
common.py's `load` invokes after `prepare_line`): comments, `$`-lines and
blank lines are skipped; a cookie line must split into exactly 7 fields; an
empty name means the value field holds the name and the value is null; the
`domain_specified` flag must agree with the domain's leading dot (the
`assert`, whose failure aborts the whole load); an empty expiry yields a
session cookie (`discard = True`), otherwise the digits are parsed
(`int(float(s))`, modelled as exact integer parsing, faithful below 2^53);
finally the cookie is dropped when its discard flag or expiry says so
(honouring the ignore flags) and stored otherwise. -/
def reallyLoadLine (ignoreDiscard ignoreExpires : Bool) (now : Int)
    (jar : List Cookie) (l : Str) : Except String (List Cookie) :=
  let st := stripWs l
  if st.head? == some '#' || st.head? == some '$' || st.isEmpty then .ok jar
  else
    match tabSplit l with
    | [domain, domainSpecified, path, secure, expiresAt, name0, value0] =>
      let secureB := secure == "TRUE".toList
      let domainSpecB := domainSpecified == "TRUE".toList
      let nv : Str × Option Str :=
        if name0.isEmpty then (value0, none) else (name0, some value0)
      let initialDot := domain.head? == some '.'
      if domainSpecB != initialDot then .error "assertion failed"
      else
        let exd : Option (Option Int × Bool) :=
          if expiresAt.isEmpty then some (none, true)
          else if isDigits expiresAt then some (some ((parseNatChars expiresAt : Nat) : Int), false)
          else none
        match exd with
        | none => .error "bad expires field"
        | some (expires, discard) =>
          let c : Cookie := ⟨domain, path, secureB, expires, nv.1, nv.2, discard⟩
          if !ignoreDiscard && c.discard then .ok jar
          else if !ignoreExpires && c.isExpired now then .ok jar
          else .ok (setCookie jar c)
    | _ => .error "invalid length"

/-- CPython 3.8 `MozillaCookieJar._really_load`: check the magic first line,
then fold the remaining lines into the jar. -/
def reallyLoad (lines : List Str) (ignoreDiscard ignoreExpires : Bool) (now : Int) :
    Except String (List Cookie) :=
  match lines with
  | [] => .error "does not look like a Netscape format cookies file"
  | magic :: rest =>
    if !magicOk magic then .error "does not look like a Netscape format cookies file"
    else rest.foldlM (reallyLoadLine ignoreDiscard ignoreExpires now) []

/-- Embedding of `YoutubeDLCookieJar.load` (lines 426-473): filter the lines
through `prepare_line` (dropping, with a warning, the ones it rejects), run
the Mozilla loader, then force cookies stored with expiry exactly `0` to be
session cookies (`expires = None`, `discard = True`, lines 469-473). -/
def jarLoad (lines : List Str) (ignoreDiscard ignoreExpires : Bool) (now : Int) :
    Except String (List Cookie) :=
  (reallyLoad (lines.filterMap prepareLine) ignoreDiscard ignoreExpires now).map
    (fun jar => jar.map (fun c =>
      if c.expires = some 0 then { c with expires := none, discard := true } else c))

/-! ## Concrete objects used by witnesses and counterexamples -/

/-- An https request as the caller would build it. -/
def reqHttps : Request := ⟨"https://example.com/v", none, [], ⟨[]⟩, [], true, none, none⟩

/-- An ftp request. -/
def reqFtp : Request := ⟨"ftp://host/x", none, [], ⟨[]⟩, [], true, none, none⟩

/-- A file-scheme request. -/
def reqFile : Request := ⟨"file:///etc/passwd", none, [], ⟨[]⟩, [], true, none, none⟩

/-- Handler A: supports only `http`, would answer with response 7. -/
def fakeRHA : Handler := schemeHandler 0 "FakeRHA" ["http"] (fun r => (.returned (some ⟨7⟩), r))

/-- Handler B: supports `http` and `https`, answers with response 8. -/
def fakeRHB : Handler :=
  schemeHandler 1 "FakeRHB" ["http", "https"] (fun r => (.returned (some ⟨8⟩), r))

/-- A manager with handlers A then B registered, default configuration. -/
def mgrAB : RHManager := ⟨addHandler (addHandler [] fakeRHA) fakeRHB, ⟨[], none⟩, []⟩

/-- A request carrying an explicit Content-Length header. -/
def reqWithCL : Request :=
  mkRequest idUrlPipeline "http://x" (some "d0") [("Content-Length", "5")] [] true none none

/-- A fully populated request: explicit data, headers, proxies, disabled
compression, and a timeout of 99. -/
def reqFull : Request :=
  mkRequest idUrlPipeline "http://x" (some "d0") [("A", "1"), ("B", "2")]
    [("http", some "p")] false none (some 99)

/-- Handler A variant supporting https, answering with response 7. -/
def fakeRHAhttps : Handler :=
  schemeHandler 0 "FakeRHA" ["https"] (fun r => (.returned (some ⟨7⟩), r))

/-- Handler B variant raising `UnsupportedRequest`. -/
def unsupportedRHB : Handler :=
  schemeHandler 1 "FakeRHB" ["http", "https"]
    (fun r => (.raised ⟨.unsupportedRequest, "nope", none⟩, r))

/-- Manager with handlers [A, B] where B — tried first — raises
`UnsupportedRequest` while A would succeed. -/
def mgrUnsupported : RHManager := ⟨[fakeRHAhttps, unsupportedRHB], ⟨[], none⟩, []⟩

/-- Handler B variant raising `TransportError`. -/
def transportRHB : Handler :=
  schemeHandler 1 "FakeRHB" ["http", "https"]
    (fun r => (.raised ⟨.transportError, "boom", none⟩, r))

/-- Handler C supporting only ftp (skipped for an https request). -/
def ftpRHC : Handler := schemeHandler 2 "FakeRHC" ["ftp"] (fun r => (.returned (some ⟨5⟩), r))

/-- Manager registered [A, B, C]: dispatch tries C (incapable), then B, which
raises `TransportError`; A is never reached. -/
def mgrTransport : RHManager := ⟨[fakeRHAhttps, transportRHB, ftpRHC], ⟨[], none⟩, []⟩

/-- Handler B variant that mutates the request (adds an `X-Mut` header) and
returns an empty response, triggering fallback. -/
def mutatingRHB : Handler :=
  schemeHandler 1 "FakeRHB" ["http", "https"]
    (fun r => (.returned none, { r with headers := r.headers.set "X-Mut" "1" }))

/-- Manager registered [A, B] where B — tried first — mutates the request and
falls through to A. -/
def mgrMutate : RHManager := ⟨[fakeRHAhttps, mutatingRHB], ⟨[], none⟩, []⟩

/-- The request state B receives (the normalised copy) and the state it
leaves behind. -/
def normMut : Request := normalizeRequest idUrlPipeline mgrMutate reqHttps

/-- The request state after B's mutation. -/
def normMut2 : Request := { normMut with headers := normMut.headers.set "X-Mut" "1" }

/-- A request handler declaring support for the `file` scheme, answering with
response 9. -/
def fileRH : Handler := schemeHandler 3 "FileRH" ["file"] (fun r => (.returned (some ⟨9⟩), r))

/-- Manager holding only the file-scheme handler. -/
def mgrFile : RHManager := ⟨[fileRH], ⟨[], none⟩, []⟩

/-- Whether string `s` mentions `sub` as a substring (used to state what the
raised message contains). -/
def strMentions (s sub : String) : Bool := decide (sub.toList <:+: s.toList)

/-- A handler that always returns an empty response. -/
def emptyRH1 : Handler := schemeHandler 11 "EmptyRH1" ["http"] (fun r => (.returned none, r))

/-- A second handler that always returns an empty response. -/
def emptyRH2 : Handler := schemeHandler 12 "EmptyRH2" ["http"] (fun r => (.returned none, r))

/-- Manager whose two handlers never produce a response. -/
def mgrEmptyResp : RHManager := ⟨[emptyRH1, emptyRH2], ⟨[], none⟩, []⟩

/-! ## Cookie codec: well-formedness and helper definitions -/

/-- A field that serialises losslessly on a tab-separated line: no tabs and
no line breaks. -/
def cleanField (s : Str) : Bool := s.all (fun c => !(c == '\t' || c == '\n' || c == '\r'))

/-- The jar key of a cookie (`CookieJar` stores cookies by domain, path and
name). -/
def cookieKey (c : Cookie) : Str × Str × Str := (c.domain, c.path, c.name)

/-- Well-formedness of a cookie towards the Netscape codec: fields free of
tabs and line breaks, a nonempty domain that does not begin with whitespace
or a comment marker (`#`, `$`), a nonempty name whenever a value is present,
and an integer expiry strictly in the future and below `2^53` (where
Python's `int(float(s))` reparse is exact). -/
def wfCookie (now : Int) (c : Cookie) : Bool :=
  cleanField c.domain && cleanField c.path && cleanField c.name &&
    (match c.value with
     | some v => cleanField v && !c.name.isEmpty
     | none => true) &&
    (match c.domain.head? with
     | some d => !isWsChar d && !(d == '#') && !(d == '$')
     | none => false) &&
    (match c.expires with
     | some e => decide (now < e) && decide (e < 2 ^ 53)
     | none => false)

/-- A session cookie: null expiry, not flagged discard-on-close. -/
def sessionCookie : Cookie :=
  ⟨"example.com".toList, "/".toList, false, none, ['a'], some ['b'], false⟩

/-- Cookie with a value, expiring at 2000. -/
def cookieA : Cookie :=
  ⟨"example.com".toList, "/".toList, false, some 2000, ['a'], some ['b'], false⟩

/-- Cookie with a null value (the `Set-Cookie: foo` form). -/
def cookieNullVal : Cookie :=
  ⟨"example.org".toList, "/".toList, true, some 3000, ['n'], none, false⟩

/-- A discard-on-close cookie. -/
def cookieDiscard : Cookie :=
  ⟨"example.net".toList, "/".toList, false, some 2500, ['d'], some ['x'], true⟩

/-- A sample jar with a plain cookie, a null-value cookie and a discard
cookie. -/
def jarSample : List Cookie := [cookieA, cookieNullVal, cookieDiscard]

/-! ## Helper lemmas -/

theorem ciSet_append (d : CaseInsensitiveDict) (k v : String)
    (h : d.entries.any (fun p => ciMatch p.1 k) = false) :
    d.set k v = ⟨d.entries ++ [(k, v)]⟩ := by
  simp [CaseInsensitiveDict.set, h]

theorem ciOfList_acc (l : List (String × String)) :
    ∀ acc : CaseInsensitiveDict,
      (∀ p ∈ acc.entries, ∀ q ∈ l, ciMatch p.1 q.1 = false) →
      (l.map (fun p => p.1.toList.map Char.toLower)).Nodup →
      l.foldl (fun d p => d.set p.1 p.2) acc = ⟨acc.entries ++ l⟩ := by
  induction l with
  | nil => intro acc _ _; cases acc; simp
  | cons q t ih =>
    intro acc hdisj hnodup
    have hq : acc.entries.any (fun p => ciMatch p.1 q.1) = false := by
      rw [List.any_eq_false]
      intro p hp
      simpa using hdisj p hp q (by simp)
    have hset : acc.set q.1 q.2 = ⟨acc.entries ++ [q]⟩ := ciSet_append acc q.1 q.2 hq
    have hnodup2 : (t.map (fun p => p.1.toList.map Char.toLower)).Nodup := by
      simpa using hnodup.of_cons
    have hdisj2 : ∀ p ∈ (acc.entries ++ [q]), ∀ r ∈ t, ciMatch p.1 r.1 = false := by
      intro p hp r hr
      rcases List.mem_append.1 hp with hp1 | hp1
      · exact hdisj p hp1 r (by simp [hr])
      · have hpq : p = q := by simpa using hp1
        subst hpq
        have hne : p.1.toList.map Char.toLower ≠ r.1.toList.map Char.toLower := by
          have hmem : r.1.toList.map Char.toLower ∈ t.map (fun x => x.1.toList.map Char.toLower) :=
            List.mem_map.2 ⟨r, hr, rfl⟩
          have hnc : p.1.toList.map Char.toLower ∉ t.map (fun x => x.1.toList.map Char.toLower) := by
            simpa using (List.nodup_cons.1 hnodup).1
          intro hcontra
          rw [hcontra] at hnc
          exact hnc hmem
        simp only [ciMatch, beq_eq_false_iff_ne, ne_eq]
        exact hne
    calc (q :: t).foldl (fun d p => d.set p.1 p.2) acc
        = t.foldl (fun d p => d.set p.1 p.2) (acc.set q.1 q.2) := by simp
      _ = ⟨(acc.entries ++ [q]) ++ t⟩ := by rw [hset]; exact ih _ hdisj2 hnodup2
      _ = ⟨acc.entries ++ q :: t⟩ := by simp

theorem ciOfList_entries (d : CaseInsensitiveDict)
    (h : (d.entries.map (fun p => p.1.toList.map Char.toLower)).Nodup) :
    CaseInsensitiveDict.ofList d.entries = d := by
  unfold CaseInsensitiveDict.ofList
  rw [ciOfList_acc d.entries ⟨[]⟩ (by simp) h]
  cases d; simp

/-! ## Claim C2 -/

/-- Claim C2 (code bug): `remove_handler`'s docstring — and the claim — say
an instance argument removes exactly that instance and a class argument
removes all its instances (`removeHandlerDocumented`).  Evaluating the
embedded code shows the opposite: because the comprehension applies `finder`
to the `handler` argument itself instead of the list element, passing an
instance removes every registered handler and passing a class removes
none. -/
theorem c2_remove_handler_bug :
    removeHandler [⟨0, 10⟩, ⟨1, 11⟩] (.inst ⟨0, 10⟩) = [] ∧
    removeHandlerDocumented [⟨0, 10⟩, ⟨1, 11⟩] (.inst ⟨0, 10⟩) = [⟨1, 11⟩] ∧
    removeHandler [⟨0, 10⟩, ⟨1, 10⟩, ⟨2, 11⟩] (.cls 10) = [⟨0, 10⟩, ⟨1, 10⟩, ⟨2, 11⟩] ∧
    removeHandlerDocumented [⟨0, 10⟩, ⟨1, 10⟩, ⟨2, 11⟩] (.cls 10) = [⟨2, 11⟩] := by
  decide

/-! ## Claim C6 -/

/-- Claim C6 counterexample: assigning a new value to `data` on a request
whose headers contain `Content-Length` is claimed to remove that header; on
the code, the new data is stored but the request's headers still contain
`Content-Length`. -/
theorem c6_counterexample :
    (reqWithCL.setData (some "d1")).data = some "d1" ∧
    (reqWithCL.setData (some "d1")).headers.get "Content-Length" = some "5" := by
  decide

/-- Claim C6 amended: assigning `request.data` stores the new value in the
wrapped urllib store (whose CPython setter removes `Content-length` only from
the store's own, never-populated header dictionary); the Request's visible
headers are unchanged, so a `Content-Length` entry survives. -/
theorem c6_amended (r : Request) (d : Option String) :
    (r.setData d).headers = r.headers ∧ (r.setData d).data = d := by
  unfold Request.setData Request.data
  by_cases h : d = r.storeData
  · simp [h]
  · simp [h]

/-! ## Claim C10 -/

/-- Claim C10: `Request.copy` re-invokes the constructor with six positional
arguments and leaves the seventh (`timeout`) at its default, so the clone's
timeout is `None` whatever the original's was, while url, data, headers,
proxies, compression and the observable method are preserved — given that
the pipeline leaves the already-normalised url unchanged and finds no
embedded credentials in it, and that the header keys are unique ignoring
case (the `CaseInsensitiveDict` invariant). -/
theorem c10_copy_drops_timeout (P : UrlPipeline) (r : Request)
    (hnorm : P.norm r.url = (r.url, none))
    (hwf : (r.headers.entries.map (fun p => p.1.toList.map Char.toLower)).Nodup) :
    (Request.copy P r).timeout = none ∧
    (Request.copy P r).url = r.url ∧
    (Request.copy P r).data = r.data ∧
    (Request.copy P r).headers = r.headers ∧
    (Request.copy P r).proxies = r.proxies ∧
    (Request.copy P r).compression = r.compression ∧
    Request.method (Request.copy P r) = Request.method r := by
  unfold Request.copy mkRequest
  rw [hnorm]
  refine ⟨rfl, rfl, rfl, ?_, rfl, rfl, rfl⟩
  exact ciOfList_entries r.headers hwf

/-- Witness for C10 at a concrete request whose timeout is 99. -/
theorem c10_witness :
    (Request.copy idUrlPipeline reqFull).timeout = none ∧
    (Request.copy idUrlPipeline reqFull).url = reqFull.url ∧
    (Request.copy idUrlPipeline reqFull).data = reqFull.data ∧
    (Request.copy idUrlPipeline reqFull).headers = reqFull.headers ∧
    (Request.copy idUrlPipeline reqFull).proxies = reqFull.proxies ∧
    (Request.copy idUrlPipeline reqFull).compression = reqFull.compression ∧
    Request.method (Request.copy idUrlPipeline reqFull) = Request.method reqFull :=
  c10_copy_drops_timeout idUrlPipeline reqFull rfl (by decide)

/-! ## Dispatch lemmas -/

theorem dispatchRun_skip (pre rest : List Handler) (r : Request)
    (hpre : ∀ g ∈ pre, g.canHandle r = false) :
    dispatchRun (pre ++ rest) r = dispatchRun rest r := by
  induction pre with
  | nil => rfl
  | cons g t ih =>
    have hg : g.canHandle r = false := hpre g (by simp)
    show dispatchRun (g :: (t ++ rest)) r = _
    rw [dispatchRun, if_neg (by simp [hg])]
    exact ih (fun x hx => hpre x (by simp [hx]))

theorem dispatchRun_first_attempt (hs : List Handler) (r : Request) (a : Nat × Request)
    (l : List (Nat × Request)) (h : (dispatchRun hs r).attempts = a :: l) : a.2 = r := by
  induction hs generalizing l with
  | nil => simp [dispatchRun] at h
  | cons g t ih =>
    rw [dispatchRun] at h
    by_cases hg : g.canHandle r = true
    · rw [if_pos hg] at h
      rcases hh : g.handle r with ⟨o, r2⟩
      rw [hh] at h
      match o with
      | .raised e => simp at h; rw [← h.1]
      | .returned none => simp at h; rw [← h.1]
      | .returned (some res) => simp at h; rw [← h.1]
    · rw [if_neg hg] at h
      exact ih l h

/-! ## Claim C3 -/

/-- Claim C3: `urlopen` walks the registered handlers in reverse registration
order; when every later-registered handler is incapable of the normalised
request and handler `h` is capable and returns a response, that response is
returned and `h`'s attempt is the only one made — in particular no handler
registered earlier than `h` (the `rest` of the reversed list) is ever
invoked. -/
theorem c3_reverse_order_first_capable (P : UrlPipeline) (m : RHManager) (req : Request)
    (pre rest : List Handler) (h : Handler) (res : Response) (r2 : Request)
    (hrev : m.handlers.reverse = pre ++ h :: rest)
    (hpre : ∀ g ∈ pre, g.canHandle (normalizeRequest P m req) = false)
    (hcap : h.canHandle (normalizeRequest P m req) = true)
    (hres : h.handle (normalizeRequest P m req) = (.returned (some res), r2)) :
    (urlopen P m req).outcome = .ok res ∧
    (urlopen P m req).attempts = [(h.id, normalizeRequest P m req)] := by
  have hne : m.handlers.isEmpty = false := by
    cases hh : m.handlers with
    | nil => rw [hh] at hrev; simp at hrev
    | cons a l => rfl
  unfold urlopen
  rw [hne]
  simp only [Bool.false_eq_true, if_false]
  rw [hrev, dispatchRun_skip pre (h :: rest) _ hpre, dispatchRun, if_pos hcap, hres]
  exact ⟨rfl, rfl⟩

/-- Witness for C3: the spec's own scenario — handler A (`http` only) then
handler B (`http`+`https`) registered through `add_handler`; an https request
is answered by B (response 8) and A is never invoked. -/
theorem c3_witness :
    (urlopen idUrlPipeline mgrAB reqHttps).outcome = .ok ⟨8⟩ ∧
    (urlopen idUrlPipeline mgrAB reqHttps).attempts =
      [(1, normalizeRequest idUrlPipeline mgrAB reqHttps)] :=
  c3_reverse_order_first_capable idUrlPipeline mgrAB reqHttps [] [fakeRHA] fakeRHB ⟨8⟩
    (normalizeRequest idUrlPipeline mgrAB reqHttps) rfl (by simp) (by decide) rfl

/-! ## Claim C1 -/

/-- Claim C1 counterexample: B (tried first) raises `UnsupportedRequest` and
A would return response 7; the claim predicts the Director records the
reason, falls back and A succeeds.  The code instead re-raises the
`UnsupportedRequest` (tagged with B) and never attempts A. -/
theorem c1_counterexample :
    (urlopen idUrlPipeline mgrUnsupported reqHttps).outcome =
      .error ⟨.unsupportedRequest, "nope", some 1⟩ ∧
    (urlopen idUrlPipeline mgrUnsupported reqHttps).attempts.map Prod.fst = [1] := by
  decide

/-- Claim C1 amended: when a handler reached by the dispatch loop raises any
exception, `urlopen` propagates it immediately — `UnsupportedRequest`
included — with no further handler tried; a `RequestError` (of any subclass)
is first tagged with the raising handler, and a warning is logged exactly
when the exception is not a `YoutubeDLError`.  Dispatch only ever continues
past a handler that is incapable or that returns an empty response. -/
theorem c1_amended (P : UrlPipeline) (m : RHManager) (req : Request)
    (pre rest : List Handler) (h : Handler) (e : Exn) (r2 : Request)
    (hrev : m.handlers.reverse = pre ++ h :: rest)
    (hpre : ∀ g ∈ pre, g.canHandle (normalizeRequest P m req) = false)
    (hcap : h.canHandle (normalizeRequest P m req) = true)
    (hraise : h.handle (normalizeRequest P m req) = (.raised e, r2)) :
    (urlopen P m req).outcome =
      .error (if e.kind.isRequestError then { e with handler := some h.id } else e) ∧
    (urlopen P m req).attempts = [(h.id, normalizeRequest P m req)] ∧
    (urlopen P m req).warnings =
      (if e.kind.isYoutubeDLError then [] else [.unexpectedError h.id e]) := by
  have hne : m.handlers.isEmpty = false := by
    cases hh : m.handlers with
    | nil => rw [hh] at hrev; simp at hrev
    | cons a l => rfl
  unfold urlopen
  rw [hne]
  simp only [Bool.false_eq_true, if_false]
  rw [hrev, dispatchRun_skip pre (h :: rest) _ hpre, dispatchRun, if_pos hcap, hraise]
  exact ⟨rfl, rfl, rfl⟩

/-- Witness for C1 (amended): the `TransportError` raised by B propagates
tagged with B, after the incapable C was skipped and without A being tried;
no warning is logged since `TransportError` is a `YoutubeDLError`. -/
theorem c1_witness :
    (urlopen idUrlPipeline mgrTransport reqHttps).outcome =
      .error ⟨.transportError, "boom", some 1⟩ ∧
    (urlopen idUrlPipeline mgrTransport reqHttps).attempts =
      [(1, normalizeRequest idUrlPipeline mgrTransport reqHttps)] ∧
    (urlopen idUrlPipeline mgrTransport reqHttps).warnings = [] := by
  have h := c1_amended idUrlPipeline mgrTransport reqHttps [ftpRHC] [fakeRHAhttps]
    transportRHB ⟨.transportError, "boom", none⟩
    (normalizeRequest idUrlPipeline mgrTransport reqHttps) rfl
    (by intro g hg; rw [List.mem_singleton] at hg; subst hg; decide) (by decide) rfl
  simpa using h

/-! ## Claim C7 -/

/-- Claim C7 counterexample: the claim says the request is cloned before each
handler attempt, so A's attempt can never observe B's mutation.  On the code
the single copy is threaded through the loop: A's attempt sees the `X-Mut`
header that B set. -/
theorem c7_counterexample :
    (urlopen idUrlPipeline mgrMutate reqHttps).attempts.map
        (fun a => (a.1, a.2.headers.get "X-Mut")) = [(1, none), (0, some "1")] := by
  decide

/-- Claim C7 amended: `urlopen` copies and normalises the caller's request
once, before the dispatch loop — the first attempted handler receives exactly
`normalizeRequest` of the caller's request, which itself starts from
`Request.copy`, so the caller's object is never handed to a handler — but
the same copy is threaded through the loop: after a handler returns an empty
response, the next handler attempt receives the request state that handler
left behind. -/
theorem c7_amended (P : UrlPipeline) (m : RHManager) (req : Request)
    (h : Handler) (rest : List Handler) (r r2 : Request)
    (hcap : h.canHandle r = true)
    (hmut : h.handle r = (.returned none, r2)) :
    (∀ a ∈ (urlopen P m req).attempts.head?, a.2 = normalizeRequest P m req) ∧
    (dispatchRun (h :: rest) r).attempts = (h.id, r) :: (dispatchRun rest r2).attempts := by
  constructor
  · intro a ha
    unfold urlopen at ha
    by_cases he : m.handlers.isEmpty
    · rw [if_pos he] at ha; simp at ha
    · rw [if_neg he] at ha
      cases hh : (dispatchRun m.handlers.reverse (normalizeRequest P m req)).attempts with
      | nil => rw [hh] at ha; simp at ha
      | cons b l =>
        rw [hh] at ha
        simp only [List.head?_cons, Option.mem_def, Option.some.injEq] at ha
        subst ha
        exact dispatchRun_first_attempt _ _ b l hh
  · rw [dispatchRun, if_pos hcap, hmut]

/-- Witness for C7 (amended) at the concrete mutating scenario. -/
theorem c7_witness :
    (∀ a ∈ (urlopen idUrlPipeline mgrMutate reqHttps).attempts.head?,
      a.2 = normalizeRequest idUrlPipeline mgrMutate reqHttps) ∧
    (dispatchRun [mutatingRHB, fakeRHAhttps] normMut).attempts =
      (1, normMut) :: (dispatchRun [fakeRHAhttps] normMut2).attempts :=
  c7_amended idUrlPipeline mgrMutate reqHttps mutatingRHB [fakeRHAhttps] normMut normMut2
    (by decide) rfl

/-! ## Claim C4 -/

theorem normalizeRequest_url (P : UrlPipeline) (m : RHManager) (req : Request) :
    (normalizeRequest P m req).url = (P.norm req.url).1 := by
  unfold normalizeRequest
  dsimp only
  repeat' split
  all_goals rfl

/-- Claim C4 counterexample: the claim says every handler rejects a `file:`
request in the shared pre-flight step with a dedicated security-policy error
and that such a request is never dispatched.  On the code `can_handle` is
only the supported-scheme test: a handler declaring `file` accepts the
request, `urlopen` dispatches to it and returns its response. -/
theorem c4_counterexample :
    canHandleScheme ["file"] reqFile = true ∧
    (urlopen idUrlPipeline mgrFile reqFile).attempts.map Prod.fst = [3] ∧
    (urlopen idUrlPipeline mgrFile reqFile).outcome = .ok ⟨9⟩ := by
  decide

/-- Claim C4 amended: a `file:` request is subject only to the ordinary
supported-scheme test — `can_handle` accepts it exactly when `file` is among
the handler's declared schemes (no dedicated security-policy rejection
exists), and a manager whose handler declares `file` dispatches the request
to that handler's backend. -/
theorem c4_amended (P : UrlPipeline) (schemes : List String) (r : Request)
    (i : Nat) (nm : String) (hf : Request → HandleOutcome × Request)
    (pr : YDLParams) (px : SDict)
    (hscheme : urlScheme r.url = "file")
    (hnorm : P.norm r.url = (r.url, none)) :
    canHandleScheme schemes r = schemes.contains "file" ∧
    (schemes.contains "file" = true →
      (urlopen P ⟨[schemeHandler i nm schemes hf], pr, px⟩ r).attempts.map Prod.fst = [i]) := by
  have hlow : strLower (urlScheme r.url) = "file" := by rw [hscheme]; decide
  constructor
  · unfold canHandleScheme
    rw [hlow]
  · intro hfile
    set mgr : RHManager := ⟨[schemeHandler i nm schemes hf], pr, px⟩ with hmgr
    have hnu : (normalizeRequest P mgr r).url = r.url := by
      rw [normalizeRequest_url, hnorm]
    have hcap : (schemeHandler i nm schemes hf).canHandle (normalizeRequest P mgr r) = true := by
      show canHandleScheme schemes (normalizeRequest P mgr r) = true
      unfold canHandleScheme
      rw [hnu, hlow]
      exact hfile
    unfold urlopen
    rw [if_neg (by simp [hmgr])]
    have hrev : mgr.handlers.reverse = [schemeHandler i nm schemes hf] := rfl
    rw [hrev, dispatchRun, if_pos hcap]
    rcases hh : (schemeHandler i nm schemes hf).handle (normalizeRequest P mgr r) with ⟨o, r2⟩
    match o with
    | .raised e => rfl
    | .returned none => rfl
    | .returned (some res) => rfl

/-- Witness for C4 (amended) at the concrete file-scheme scenario. -/
theorem c4_witness :
    canHandleScheme ["file"] reqFile = List.contains ["file"] "file" ∧
    (List.contains ["file"] "file" = true →
      (urlopen idUrlPipeline mgrFile reqFile).attempts.map Prod.fst = [3]) :=
  c4_amended idUrlPipeline ["file"] reqFile 3 "FileRH"
    (fun r => (.returned (some ⟨9⟩), r)) ⟨[], none⟩ [] (by decide) rfl

/-! ## Claim C5 -/

/-- Claim C5 counterexample: with handlers FakeRHA and FakeRHB both rejecting
an ftp request, the claim predicts an aggregate message grouping the
per-handler unsupported reasons and naming the handlers.  The code raises a
fixed-text `YoutubeDLError` that names neither handler and carries no
reasons (none are ever recorded). -/
theorem c5_counterexample :
    (urlopen idUrlPipeline mgrAB reqFtp).outcome =
      .error ⟨.ydlError, "No request handlers configured that could handle this request.", none⟩ ∧
    strMentions "No request handlers configured that could handle this request."
      "FakeRHA" = false ∧
    strMentions "No request handlers configured that could handle this request."
      "FakeRHB" = false := by
  decide

/-- Claim C5 amended: when every registered handler is exhausted without a
response — each either incapable or returning an empty response whenever it
is capable — `urlopen` raises a `YoutubeDLError` with the fixed message
`No request handlers configured that could handle this request.`; no
per-handler reasons or error counts are collected or reported. -/
theorem c5_amended (P : UrlPipeline) (m : RHManager) (req : Request)
    (hne : m.handlers.isEmpty = false)
    (hnone : ∀ h ∈ m.handlers, ∀ r : Request, h.canHandle r = true →
      (h.handle r).1 = HandleOutcome.returned none) :
    (urlopen P m req).outcome =
      .error ⟨.ydlError, "No request handlers configured that could handle this request.",
        none⟩ := by
  unfold urlopen
  rw [hne]
  simp only [Bool.false_eq_true, if_false]
  have key : ∀ (hs : List Handler) (r : Request),
      (∀ h ∈ hs, ∀ r2 : Request, h.canHandle r2 = true →
        (h.handle r2).1 = HandleOutcome.returned none) →
      (dispatchRun hs r).outcome =
        .error ⟨.ydlError, "No request handlers configured that could handle this request.",
          none⟩ := by
    intro hs
    induction hs with
    | nil => intro r _; rfl
    | cons g t ih =>
      intro r hall
      rw [dispatchRun]
      by_cases hg : g.canHandle r = true
      · rw [if_pos hg]
        have h1 : (g.handle r).1 = HandleOutcome.returned none := hall g (by simp) r hg
        have h2 : g.handle r = (HandleOutcome.returned none, (g.handle r).2) := by
          conv_lhs => rw [← Prod.mk.eta (p := g.handle r)]
          rw [h1]
        rw [h2]
        exact ih (g.handle r).2 (fun x hx => hall x (by simp [hx]))
      · rw [if_neg hg]
        exact ih r (fun x hx => hall x (by simp [hx]))
  exact key m.handlers.reverse (normalizeRequest P m req)
    (fun h hh => hnone h (List.mem_reverse.1 hh))

/-- Witness for C5 (amended): both handlers exhaust and the fixed-message
error is raised. -/
theorem c5_witness :
    (urlopen idUrlPipeline mgrEmptyResp reqHttps).outcome =
      .error ⟨.ydlError, "No request handlers configured that could handle this request.",
        none⟩ :=
  c5_amended idUrlPipeline mgrEmptyResp reqHttps rfl
    (by
      intro h hh r hcap
      cases hh with
      | head => rfl
      | tail _ hh2 =>
        cases hh2 with
        | head => rfl
        | tail _ hh3 => cases hh3)

/-! ## Cookie codec: character and digit lemmas -/

theorem digitChar_isDigit (d : Nat) (h : d < 10) : (digitChar d).isDigit = true := by
  interval_cases d <;> decide

theorem digitVal_digitChar (d : Nat) (h : d < 10) : digitVal (digitChar d) = d := by
  interval_cases d <;> decide

theorem isDigit_ne_tab (c : Char) (h : c.isDigit = true) : ¬c = '\t' := by
  intro he
  rw [he] at h
  exact absurd h (by decide)

theorem natToChars_ne_nil (n : Nat) : natToChars n ≠ [] := by
  rw [natToChars]
  split
  · simp
  · simp

theorem natToChars_all_digits (n : Nat) : ∀ c ∈ natToChars n, c.isDigit = true := by
  induction n using natToChars.induct with
  | case1 n h =>
    rw [natToChars]
    simp only [h, dif_pos]
    intro c hc
    rw [List.mem_singleton] at hc
    rw [hc]
    exact digitChar_isDigit n h
  | case2 n h ih =>
    rw [natToChars]
    simp only [h, dif_neg]
    intro c hc
    rcases List.mem_append.1 hc with h1 | h1
    · exact ih c h1
    · rw [List.mem_singleton] at h1
      rw [h1]
      exact digitChar_isDigit _ (Nat.mod_lt n (by omega))

theorem parseNat_natToChars (n : Nat) : parseNatChars (natToChars n) = n := by
  induction n using natToChars.induct with
  | case1 n h =>
    rw [natToChars, dif_pos h]
    show 0 * 10 + digitVal (digitChar n) = n
    rw [digitVal_digitChar n h]
    omega
  | case2 n h ih =>
    rw [natToChars, dif_neg h]
    unfold parseNatChars
    rw [List.foldl_append]
    show (parseNatChars (natToChars (n / 10))) * 10 + digitVal (digitChar (n % 10)) = n
    rw [ih, digitVal_digitChar _ (Nat.mod_lt n (by omega))]
    omega

theorem isDigits_natToChars (n : Nat) : isDigits (natToChars n) = true := by
  unfold isDigits
  rw [Bool.and_eq_true]
  constructor
  · simp [natToChars_ne_nil n]
  · rw [List.all_eq_true]
    exact natToChars_all_digits n

theorem isDigit_clean (c : Char) (h : c.isDigit = true) :
    (!(c == '\t' || c == '\n' || c == '\r')) = true := by
  simp only [Bool.not_eq_true', Bool.or_eq_false_iff]
  refine ⟨⟨?_, ?_⟩, ?_⟩ <;>
    (rw [beq_eq_false_iff_ne]; intro he; rw [he] at h; exact absurd h (by decide))

theorem natToChars_clean (n : Nat) : cleanField (natToChars n) = true := by
  unfold cleanField
  rw [List.all_eq_true]
  intro c hc
  exact isDigit_clean c (natToChars_all_digits n c hc)

/-! ## Cookie codec: line structure lemmas -/

theorem tabSplit_tabJoin (fs : List Str) (hne : fs ≠ [])
    (hnt : ∀ f ∈ fs, '\t' ∉ f) : tabSplit (tabJoin fs) = fs := by
  unfold tabSplit tabJoin
  exact List.splitOn_intercalate fs '\t' hnt hne

theorem tabJoin_cons (f g : Str) (fs : List Str) :
    tabJoin (f :: g :: fs) = f ++ '\t' :: tabJoin (g :: fs) := by
  rfl

theorem cleanField_no_tab (s : Str) (h : cleanField s = true) : '\t' ∉ s := by
  intro hm
  unfold cleanField at h
  rw [List.all_eq_true] at h
  have := h '\t' hm
  simp at this

theorem dropWhile_append_singleton (p : Char → Bool) (l : Str) (c : Char)
    (hc : p c = false) :
    ∃ u : Str, (l ++ [c]).dropWhile p = u ++ [c] := by
  induction l with
  | nil => exact ⟨[], by simp [List.dropWhile, hc]⟩
  | cons a t ih =>
    by_cases ha : p a = true
    · rcases ih with ⟨u, hu⟩
      exact ⟨u, by simp [List.dropWhile, ha, hu]⟩
    · refine ⟨a :: t, ?_⟩
      have hb : p a ≠ true := by simp [ha]
      simp [List.dropWhile, ha]

theorem stripWs_cons (c : Char) (t : Str) (hc : isWsChar c = false) :
    ∃ u : Str, stripWs (c :: t) = c :: u := by
  unfold stripWs
  have h1 : (c :: t).dropWhile isWsChar = c :: t := by
    simp [List.dropWhile, hc]
  rw [h1]
  have h2 : (c :: t).reverse = t.reverse ++ [c] := by simp
  rw [h2]
  rcases dropWhile_append_singleton isWsChar t.reverse c hc with ⟨u, hu⟩
  rw [hu]
  exact ⟨u.reverse, by simp⟩

theorem wfCookie_parts (now : Int) (c : Cookie) (h : wfCookie now c = true) :
    cleanField c.domain = true ∧ cleanField c.path = true ∧ cleanField c.name = true ∧
    (∀ v, c.value = some v → cleanField v = true ∧ c.name ≠ []) ∧
    (∃ d0 drest, c.domain = d0 :: drest ∧ isWsChar d0 = false ∧ d0 ≠ '#' ∧ d0 ≠ '$') ∧
    (∃ e, c.expires = some e ∧ now < e ∧ e < 2 ^ 53) := by
  unfold wfCookie at h
  simp only [Bool.and_eq_true] at h
  obtain ⟨⟨⟨⟨⟨h1, h2⟩, h3⟩, h4⟩, h5⟩, h6⟩ := h
  refine ⟨h1, h2, h3, ?_, ?_, ?_⟩
  · intro v hv
    rw [hv] at h4
    simp only [Bool.and_eq_true] at h4
    refine ⟨h4.1, ?_⟩
    have := h4.2
    simp only [Bool.not_eq_true'] at this
    simpa using this
  · rcases hd : c.domain with _ | ⟨d0, drest⟩
    · rw [hd] at h5
      simp at h5
    · rw [hd] at h5
      simp only [List.head?_cons] at h5
      simp only [Bool.and_eq_true, Bool.not_eq_true'] at h5
      refine ⟨d0, drest, rfl, h5.1.1, ?_, ?_⟩
      · have := h5.1.2
        simpa using this
      · have := h5.2
        simpa using this
  · rcases he : c.expires with _ | e
    · rw [he] at h6
      simp at h6
    · rw [he] at h6
      simp only [Bool.and_eq_true, decide_eq_true_eq] at h6
      exact ⟨e, rfl, h6.1, h6.2⟩

theorem prepareLine_header1 : prepareLine headerLine1 = some headerLine1 := by decide

theorem prepareLine_header2 : prepareLine headerLine2 = some headerLine2 := by decide

theorem prepareLine_cookieLine (d0 : Char) (drest f2 f3 f4 f5 f6 f7 : Str)
    (hw : isWsChar d0 = false) (hh : d0 ≠ '#')
    (hnt : ∀ f ∈ [d0 :: drest, f2, f3, f4, f5, f6, f7], '\t' ∉ f)
    (hexp : f5 = [] ∨ isDigits f5 = true) :
    prepareLine (tabJoin [d0 :: drest, f2, f3, f4, f5, f6, f7]) =
      some (tabJoin [d0 :: drest, f2, f3, f4, f5, f6, f7]) := by
  have hlc : tabJoin [d0 :: drest, f2, f3, f4, f5, f6, f7] =
      d0 :: (drest ++ '\t' :: tabJoin [f2, f3, f4, f5, f6, f7]) := by
    rw [tabJoin_cons]
    rfl
  have hsplit : tabSplit (tabJoin [d0 :: drest, f2, f3, f4, f5, f6, f7]) =
      [d0 :: drest, f2, f3, f4, f5, f6, f7] :=
    tabSplit_tabJoin _ (by simp) hnt
  have hmark : httpOnlyMarker = '#' :: "HttpOnly_".toList := rfl
  have hpre : httpOnlyMarker.isPrefixOf (tabJoin [d0 :: drest, f2, f3, f4, f5, f6, f7])
      = false := by
    rw [hmark, hlc]
    simp only [List.isPrefixOf]
    rw [Bool.and_eq_false_iff]
    left
    rw [beq_eq_false_iff_ne]
    exact fun he => hh he.symm
  have hstrip : ∃ u, stripWs (tabJoin [d0 :: drest, f2, f3, f4, f5, f6, f7]) =
      d0 :: u := by
    rw [hlc]
    exact stripWs_cons d0 _ hw
  unfold prepareLine
  rw [hpre]
  simp only [Bool.false_eq_true, if_false]
  rcases hstrip with ⟨u, hu⟩
  have hhead : (tabJoin [d0 :: drest, f2, f3, f4, f5, f6, f7]).head? = some d0 := by
    rw [hlc]
    rfl
  rw [hhead, hu]
  have hc1 : ((some d0 == some '#') || (d0 :: u).isEmpty) = false := by
    rw [Bool.or_eq_false_iff]
    constructor
    · rw [beq_eq_false_iff_ne]
      intro hcontra
      exact hh (Option.some.inj hcontra)
    · rfl
  rw [hc1]
  simp only [Bool.false_eq_true, if_false]
  rw [hsplit]
  simp only [List.length_cons, List.length_nil, List.getD]
  rw [if_neg (by omega)]
  rcases hexp with he | he
  · subst he
    simp
  · simp [he]

theorem reallyLoadLine_comment (idf ief : Bool) (now : Int) (jar : List Cookie) :
    reallyLoadLine idf ief now jar headerLine2 = .ok jar := rfl

theorem boolFlag_beq (b : Bool) :
    ((if b then "TRUE".toList else "FALSE".toList) == "TRUE".toList) = b := by
  cases b <;> rfl

theorem boolFlag_no_tab (b : Bool) :
    '\t' ∉ (if b then "TRUE".toList else "FALSE".toList) := by
  cases b <;> decide

theorem natToChars_isEmpty (n : Nat) : (natToChars n).isEmpty = false := by
  rcases hx : natToChars n with _ | ⟨a, b⟩
  · exact absurd hx (natToChars_ne_nil _)
  · rfl

theorem natToChars_no_tab (n : Nat) : '\t' ∉ natToChars n := by
  intro hm
  exact isDigit_ne_tab '\t' (natToChars_all_digits n '\t' hm) rfl

theorem reallyLoadLine_fields (idf ief : Bool) (now : Int) (jar : List Cookie)
    (d0 : Char) (drest path name0 value0 : Str) (secure : Bool) (e : Int)
    (hw : isWsChar d0 = false) (hh : d0 ≠ '#') (hdol : d0 ≠ '$')
    (hnt : ∀ f ∈ [d0 :: drest,
        (if (d0 :: drest : Str).head? == some '.' then "TRUE".toList else "FALSE".toList),
        path, (if secure then "TRUE".toList else "FALSE".toList),
        natToChars e.toNat, name0, value0], '\t' ∉ f)
    (he0 : (0 : Int) ≤ e)
    (hkeep : (!ief && decide (e ≤ now)) = false) :
    reallyLoadLine idf ief now jar
      (tabJoin [d0 :: drest,
        (if (d0 :: drest : Str).head? == some '.' then "TRUE".toList else "FALSE".toList),
        path, (if secure then "TRUE".toList else "FALSE".toList),
        natToChars e.toNat, name0, value0]) =
      .ok (setCookie jar ⟨d0 :: drest, path, secure, some e,
        (if name0.isEmpty then value0 else name0),
        (if name0.isEmpty then (none : Option Str) else some value0), false⟩) := by
  have hsplit := tabSplit_tabJoin [d0 :: drest,
    (if (d0 :: drest : Str).head? == some '.' then "TRUE".toList else "FALSE".toList),
    path, (if secure then "TRUE".toList else "FALSE".toList),
    natToChars e.toNat, name0, value0] (by simp) hnt
  have hlc : tabJoin [d0 :: drest,
      (if (d0 :: drest : Str).head? == some '.' then "TRUE".toList else "FALSE".toList),
      path, (if secure then "TRUE".toList else "FALSE".toList),
      natToChars e.toNat, name0, value0] =
      d0 :: (drest ++ '\t' :: tabJoin [
        (if (d0 :: drest : Str).head? == some '.' then "TRUE".toList else "FALSE".toList),
        path, (if secure then "TRUE".toList else "FALSE".toList),
        natToChars e.toNat, name0, value0]) := by
    rw [tabJoin_cons]
    rfl
  have hstrip : ∃ u, stripWs (tabJoin [d0 :: drest,
      (if (d0 :: drest : Str).head? == some '.' then "TRUE".toList else "FALSE".toList),
      path, (if secure then "TRUE".toList else "FALSE".toList),
      natToChars e.toNat, name0, value0]) = d0 :: u := by
    rw [hlc]
    exact stripWs_cons d0 _ hw
  rcases hstrip with ⟨u, hu⟩
  unfold reallyLoadLine
  dsimp only
  rw [hu]
  have hc1 : (((d0 :: u : Str).head? == some '#' || (d0 :: u : Str).head? == some '$') ||
      (d0 :: u : Str).isEmpty) = false := by
    simp only [List.head?_cons, List.isEmpty_cons, Bool.or_eq_false_iff]
    refine ⟨⟨?_, ?_⟩, ?_⟩
    · rw [beq_eq_false_iff_ne]
      intro hx
      exact hh (Option.some.inj hx)
    · rw [beq_eq_false_iff_ne]
      intro hx
      exact hdol (Option.some.inj hx)
    · trivial
  rw [hc1]
  simp only [Bool.false_eq_true, if_false]
  rw [hsplit]
  have hexp1 : (natToChars e.toNat).isEmpty = false := natToChars_isEmpty _
  have hdig : isDigits (natToChars e.toNat) = true := isDigits_natToChars _
  by_cases hn : name0.isEmpty = true
  all_goals
    simp only [hn, boolFlag_beq, bne_self_eq_false, Bool.false_eq_true, if_false, if_true,
      hexp1, hdig, parseNat_natToChars, Int.toNat_of_nonneg he0, Bool.and_false,
      Cookie.isExpired, hkeep]

theorem reallyLoadLine_save (idf ief : Bool) (now : Int) (jar : List Cookie) (c : Cookie)
    (hwf : wfCookie now c = true) (hnow : (0 : Int) ≤ now) (hdisc : c.discard = false) :
    reallyLoadLine idf ief now jar (saveCookieLine c) = .ok (setCookie jar c) := by
  obtain ⟨hdc, hpc, hnc, hval, ⟨d0, drest, hdom, hw, hh, hdol⟩, ⟨e, hexp, hlt, _⟩⟩ :=
    wfCookie_parts now c hwf
  have he0 : (0 : Int) ≤ e := le_trans hnow (le_of_lt hlt)
  have hkeep : (!ief && decide (e ≤ now)) = false := by
    have hd2 : decide (e ≤ now) = false := decide_eq_false (by omega)
    rw [hd2, Bool.and_false]
  have hitc : intToChars e = natToChars e.toNat := by
    unfold intToChars
    rw [if_neg (by omega)]
  rcases hv : c.value with _ | v
  · have hline : saveCookieLine c = tabJoin [c.domain,
        (if (c.domain : Str).head? == some '.' then "TRUE".toList else "FALSE".toList),
        c.path, (if c.secure then "TRUE".toList else "FALSE".toList),
        natToChars e.toNat, [], c.name] := by
      unfold saveCookieLine
      simp only [hexp, hv, hitc]
    rw [hline, hdom]
    have hnt : ∀ f ∈ [d0 :: drest,
        (if (d0 :: drest : Str).head? == some '.' then "TRUE".toList else "FALSE".toList),
        c.path, (if c.secure then "TRUE".toList else "FALSE".toList),
        natToChars e.toNat, ([] : Str), c.name], '\t' ∉ f := by
      intro f hf
      simp only [List.mem_cons, List.not_mem_nil, or_false] at hf
      rcases hf with rfl | rfl | rfl | rfl | rfl | rfl | rfl
      · rw [← hdom]
        exact cleanField_no_tab _ hdc
      · exact boolFlag_no_tab _
      · exact cleanField_no_tab _ hpc
      · exact boolFlag_no_tab _
      · exact natToChars_no_tab _
      · simp
      · exact cleanField_no_tab _ hnc
    rw [reallyLoadLine_fields idf ief now jar d0 drest c.path [] c.name c.secure e
      hw hh hdol hnt he0 hkeep]
    have hck : (⟨d0 :: drest, c.path, c.secure, some e,
        (if ([] : Str).isEmpty then c.name else []),
        (if ([] : Str).isEmpty then (none : Option Str) else some c.name), false⟩ : Cookie)
        = c := by
      simp only [List.isEmpty_nil, if_true]
      rw [← hdom, ← hexp, ← hv, ← hdisc]
    rw [hck]
  · have hnameNe : c.name ≠ [] := (hval v hv).2
    have hnameEmpty : c.name.isEmpty = false := by
      rcases hn : c.name with _ | ⟨n0, nrest⟩
      · exact absurd hn hnameNe
      · rfl
    have hline : saveCookieLine c = tabJoin [c.domain,
        (if (c.domain : Str).head? == some '.' then "TRUE".toList else "FALSE".toList),
        c.path, (if c.secure then "TRUE".toList else "FALSE".toList),
        natToChars e.toNat, c.name, v] := by
      unfold saveCookieLine
      simp only [hexp, hv, hitc]
    rw [hline, hdom]
    have hnt : ∀ f ∈ [d0 :: drest,
        (if (d0 :: drest : Str).head? == some '.' then "TRUE".toList else "FALSE".toList),
        c.path, (if c.secure then "TRUE".toList else "FALSE".toList),
        natToChars e.toNat, c.name, v], '\t' ∉ f := by
      intro f hf
      simp only [List.mem_cons, List.not_mem_nil, or_false] at hf
      rcases hf with rfl | rfl | rfl | rfl | rfl | rfl | rfl
      · rw [← hdom]
        exact cleanField_no_tab _ hdc
      · exact boolFlag_no_tab _
      · exact cleanField_no_tab _ hpc
      · exact boolFlag_no_tab _
      · exact natToChars_no_tab _
      · exact cleanField_no_tab _ hnc
      · exact cleanField_no_tab _ (hval _ hv).1
    rw [reallyLoadLine_fields idf ief now jar d0 drest c.path c.name v c.secure e
      hw hh hdol hnt he0 hkeep]
    have hck : (⟨d0 :: drest, c.path, c.secure, some e,
        (if c.name.isEmpty then v else c.name),
        (if c.name.isEmpty then (none : Option Str) else some v), false⟩ : Cookie) = c := by
      simp only [hnameEmpty, Bool.false_eq_true, if_false]
      rw [← hdom, ← hexp, ← hv, ← hdisc]
    rw [hck]

theorem setCookie_append (jar : List Cookie) (c : Cookie)
    (h : ∀ d ∈ jar, cookieKey d ≠ cookieKey c) :
    setCookie jar c = jar ++ [c] := by
  unfold setCookie
  have hany : (jar.any fun d => d.domain == c.domain && d.path == c.path && d.name == c.name)
      = false := by
    rw [List.any_eq_false]
    intro d hd
    by_contra hcontra
    rw [Bool.and_eq_true, Bool.and_eq_true] at hcontra
    obtain ⟨⟨h1, h2⟩, h3⟩ := hcontra
    apply h d hd
    unfold cookieKey
    rw [eq_of_beq h1, eq_of_beq h2, eq_of_beq h3]
  rw [hany]
  simp

theorem foldlM_save (idf ief : Bool) (now : Int) (hnow : (0 : Int) ≤ now) :
    ∀ cs acc : List Cookie,
      (∀ c ∈ cs, wfCookie now c = true ∧ c.discard = false) →
      ((acc ++ cs).map cookieKey).Nodup →
      List.foldlM (reallyLoadLine idf ief now) acc (cs.map saveCookieLine) =
        .ok (acc ++ cs) := by
  intro cs
  induction cs with
  | nil =>
    intro acc _ _
    simp only [List.map_nil, List.foldlM_nil, List.append_nil]
    rfl
  | cons c t ih =>
    intro acc hall hkeys
    simp only [List.map_cons, List.foldlM_cons]
    rw [reallyLoadLine_save idf ief now acc c (hall c (by simp)).1 hnow (hall c (by simp)).2]
    have hfresh : ∀ d ∈ acc, cookieKey d ≠ cookieKey c := by
      intro d hd hcontra
      rw [List.map_append] at hkeys
      rcases List.nodup_append.1 hkeys with ⟨_, _, hdisj⟩
      exact hdisj (List.mem_map.2 ⟨d, hd, rfl⟩) (by rw [hcontra]; simp)
    rw [setCookie_append acc c hfresh]
    have hassoc : (acc ++ [c]) ++ t = acc ++ c :: t := by simp
    have hrec := ih (acc ++ [c]) (fun x hx => hall x (by simp [hx]))
      (by rw [hassoc]; exact hkeys)
    rw [show ((Except.ok (acc ++ [c]) : Except String (List Cookie)) >>=
        fun b => List.foldlM (reallyLoadLine idf ief now) b (t.map saveCookieLine)) =
        List.foldlM (reallyLoadLine idf ief now) (acc ++ [c]) (t.map saveCookieLine)
      from rfl]
    rw [hrec, hassoc]

theorem reallyLoad_save (idf ief : Bool) (now : Int) (hnow : (0 : Int) ≤ now)
    (kept : List Cookie)
    (hall : ∀ c ∈ kept, wfCookie now c = true ∧ c.discard = false)
    (hkeys : (kept.map cookieKey).Nodup) :
    reallyLoad (headerLine1 :: headerLine2 :: kept.map saveCookieLine) idf ief now =
      .ok kept := by
  have hstep : reallyLoad (headerLine1 :: headerLine2 :: kept.map saveCookieLine) idf ief now =
      List.foldlM (reallyLoadLine idf ief now) [] (headerLine2 :: kept.map saveCookieLine) := by
    unfold reallyLoad
    rfl
  rw [hstep]
  simp only [List.foldlM_cons]
  rw [reallyLoadLine_comment]
  rw [show ((Except.ok ([] : List Cookie) : Except String (List Cookie)) >>=
      fun b => List.foldlM (reallyLoadLine idf ief now) b (kept.map saveCookieLine)) =
      List.foldlM (reallyLoadLine idf ief now) [] (kept.map saveCookieLine) from rfl]
  rw [foldlM_save idf ief now hnow kept [] hall (by simpa using hkeys)]
  simp

theorem prepare_save_lines (now : Int) (hnow : (0 : Int) ≤ now) (kept : List Cookie)
    (hall : ∀ c ∈ kept, wfCookie now c = true) :
    (headerLine1 :: headerLine2 :: kept.map saveCookieLine).filterMap prepareLine =
      headerLine1 :: headerLine2 :: kept.map saveCookieLine := by
  simp only [List.filterMap_cons, prepareLine_header1, prepareLine_header2]
  congr 1
  congr 1
  induction kept with
  | nil => rfl
  | cons c t ih =>
    have hwf := hall c (by simp)
    obtain ⟨hdc, hpc, hnc, hval, ⟨d0, drest, hdom, hw, hh, hdol⟩, ⟨e, hexp, hlt, _⟩⟩ :=
      wfCookie_parts now c hwf
    have hprep : prepareLine (saveCookieLine c) = some (saveCookieLine c) := by
      have hline : saveCookieLine c = tabJoin [c.domain,
          (if (c.domain : Str).head? == some '.' then "TRUE".toList else "FALSE".toList),
          c.path, (if c.secure then "TRUE".toList else "FALSE".toList),
          intToChars e,
          (match c.value with | some _ => c.name | none => []),
          (match c.value with | some v => v | none => c.name)] := by
        unfold saveCookieLine
        simp only [hexp]
      have hitc : intToChars e = natToChars e.toNat := by
        unfold intToChars
        rw [if_neg (by omega)]
      rw [hline, hdom, hitc]
      apply prepareLine_cookieLine d0 drest _ _ _ _ _ _ hw hh
      · intro f hf
        simp only [List.mem_cons, List.not_mem_nil, or_false] at hf
        rcases hf with rfl | rfl | rfl | rfl | rfl | rfl | rfl
        · rw [← hdom]
          exact cleanField_no_tab _ hdc
        · exact boolFlag_no_tab _
        · exact cleanField_no_tab _ hpc
        · exact boolFlag_no_tab _
        · exact natToChars_no_tab _
        · rcases hv : c.value with _ | v
          · simp
          · simp only [hv]
            exact cleanField_no_tab _ hnc
        · rcases hv : c.value with _ | v
          · simp only [hv]
            exact cleanField_no_tab _ hnc
          · simp only [hv]
            exact cleanField_no_tab _ (hval _ hv).1
      · right
        exact isDigits_natToChars _
    simp only [List.map_cons, List.filterMap_cons, hprep]
    congr 1
    exact ih (fun x hx => hall x (by simp [hx]))

theorem saveFilter_eq (now : Int) (jar : List Cookie)
    (hwf : ∀ c ∈ jar, c.discard = false → wfCookie now c = true) :
    List.filter (fun c => (false || !c.discard) && (false || !c.isExpired now))
        (jar.map (fun c => if c.expires = none then { c with expires := some 0 } else c)) =
      jar.filter (fun c => !c.discard) := by
  induction jar with
  | nil => rfl
  | cons c t ih =>
    simp only [List.map_cons, List.filter_cons]
    by_cases hd : c.discard = true
    · have hfd : (if c.expires = none then { c with expires := some 0 } else c).discard
          = true := by
        split <;> exact hd
      have h1 : ((false || !(if c.expires = none then { c with expires := some 0 }
          else c).discard) &&
          (false || !(if c.expires = none then { c with expires := some 0 }
            else c).isExpired now)) = false := by
        rw [hfd]
        rfl
      rw [h1]
      simp only [Bool.false_eq_true, if_false]
      rw [show (!c.discard) = false from by rw [hd]; rfl]
      simp only [Bool.false_eq_true, if_false]
      exact ih (fun x hx => hwf x (by simp [hx]))
    · have hdf : c.discard = false := by
        revert hd
        cases c.discard <;> simp
      have hw := hwf c (by simp) hdf
      obtain ⟨_, _, _, _, _, ⟨e, hexp, hlt, _⟩⟩ := wfCookie_parts now c hw
      have hfc : (if c.expires = none then { c with expires := some 0 } else c) = c := by
        rw [if_neg (by rw [hexp]; simp)]
      rw [hfc]
      have hexpf : c.isExpired now = false := by
        unfold Cookie.isExpired
        simp only [hexp]
        exact decide_eq_false (by omega)
      have hcond : ((false || !c.discard) && (false || !c.isExpired now)) = true := by
        rw [hdf, hexpf]
        rfl
      rw [hcond, show (!c.discard) = true from by rw [hdf]; rfl]
      simp only [if_true]
      rw [ih (fun x hx => hwf x (by simp [hx]))]

theorem jarSave_lines (now : Int) (jar : List Cookie)
    (hwf : ∀ c ∈ jar, c.discard = false → wfCookie now c = true) :
    jarSave jar false false now =
      headerLine1 :: headerLine2 :: (jar.filter (fun c => !c.discard)).map saveCookieLine := by
  show headerLine1 :: headerLine2 ::
      (List.filter (fun c => (false || !c.discard) && (false || !c.isExpired now))
        (jar.map (fun c => if c.expires = none then { c with expires := some 0 } else c))).map
        saveCookieLine = _
  rw [saveFilter_eq now jar hwf]

theorem postProcess_id (now : Int) (kept : List Cookie) (hnow : (0 : Int) ≤ now)
    (hall : ∀ c ∈ kept, wfCookie now c = true) :
    kept.map (fun c =>
      if c.expires = some 0 then { c with expires := none, discard := true } else c) = kept := by
  induction kept with
  | nil => rfl
  | cons c t ih =>
    obtain ⟨_, _, _, _, _, ⟨e, hexp, hlt, _⟩⟩ := wfCookie_parts now c (hall c (by simp))
    simp only [List.map_cons]
    rw [if_neg (by
      rw [hexp]
      intro hcon
      injection hcon with hcon2
      omega)]
    rw [ih (fun x hx => hall x (by simp [hx]))]

/-! ## Claim C9 -/

/-- Claim C9 counterexample: `sessionCookie` is neither expired nor
discard-flagged, yet save-then-load loses it — `save` first rewrites its
null expiry to `0` and then drops it as already expired, so the loaded jar
is empty. -/
theorem c9_counterexample :
    sessionCookie.discard = false ∧
    sessionCookie.isExpired 1000 = false ∧
    jarLoad (jarSave [sessionCookie] false false 1000) false false 1000 = .ok [] := by
  decide

/-- Claim C9 amended: for jars whose non-discarded cookies are well formed —
tab- and newline-free fields, a domain that does not start with whitespace or
a comment marker, a name present whenever a value is, an integer expiry
strictly greater than the (nonnegative) current time and below `2^53`, and
pairwise distinct (domain, path, name) keys — saving with default flags and
loading the result with default flags reproduces exactly the non-discarded
cookies; in particular a cookie with a null value is serialised with an
empty name field and its name stored in the value field, and survives the
round trip.  (Discard-flagged cookies are the ones intentionally filtered;
cookies with a null expiry are rewritten to expiry `0` by save and then
dropped as expired, which is what the counterexample exhibits.) -/
theorem c9_roundtrip (jar : List Cookie) (now : Int) (hnow : (0 : Int) ≤ now)
    (hwf : ∀ c ∈ jar, c.discard = false → wfCookie now c = true)
    (hkeys : ((jar.filter (fun c => !c.discard)).map cookieKey).Nodup) :
    jarLoad (jarSave jar false false now) false false now =
      .ok (jar.filter (fun c => !c.discard)) ∧
    (∀ c ∈ jar, c.discard = false → c.value = none →
      (tabSplit (saveCookieLine c)).getD 5 ['*'] = [] ∧
      (tabSplit (saveCookieLine c)).getD 6 ['*'] = c.name) := by
  have hkall : ∀ c ∈ jar.filter (fun c => !c.discard),
      wfCookie now c = true ∧ c.discard = false := by
    intro c hc
    rw [List.mem_filter] at hc
    have hdf : c.discard = false := by
      have := hc.2
      revert this
      cases c.discard <;> simp
    exact ⟨hwf c hc.1 hdf, hdf⟩
  constructor
  · unfold jarLoad
    rw [jarSave_lines now jar hwf]
    rw [prepare_save_lines now hnow (jar.filter (fun c => !c.discard))
      (fun c hc => (hkall c hc).1)]
    rw [reallyLoad_save false false now hnow (jar.filter (fun c => !c.discard)) hkall hkeys]
    show Except.ok _ = _
    congr 1
    exact postProcess_id now _ hnow (fun c hc => (hkall c hc).1)
  · intro c hc hdisc hv
    obtain ⟨hdc, hpc, hnc, hval, ⟨d0, drest, hdom, hw, hh, hdol⟩, ⟨e, hexp, hlt, _⟩⟩ :=
      wfCookie_parts now c (hwf c hc hdisc)
    have hitc : intToChars e = natToChars e.toNat := by
      unfold intToChars
      rw [if_neg (by omega)]
    have hline : saveCookieLine c = tabJoin [c.domain,
        (if (c.domain : Str).head? == some '.' then "TRUE".toList else "FALSE".toList),
        c.path, (if c.secure then "TRUE".toList else "FALSE".toList),
        natToChars e.toNat, [], c.name] := by
      unfold saveCookieLine
      simp only [hexp, hv, hitc]
    have hnt : ∀ f ∈ [c.domain,
        (if (c.domain : Str).head? == some '.' then "TRUE".toList else "FALSE".toList),
        c.path, (if c.secure then "TRUE".toList else "FALSE".toList),
        natToChars e.toNat, ([] : Str), c.name], '\t' ∉ f := by
      intro f hf
      simp only [List.mem_cons, List.not_mem_nil, or_false] at hf
      rcases hf with rfl | rfl | rfl | rfl | rfl | rfl | rfl
      · exact cleanField_no_tab _ hdc
      · exact boolFlag_no_tab _
      · exact cleanField_no_tab _ hpc
      · exact boolFlag_no_tab _
      · exact natToChars_no_tab _
      · simp
      · exact cleanField_no_tab _ hnc
    rw [hline, tabSplit_tabJoin _ (by simp) hnt]
    exact ⟨rfl, rfl⟩

/-- Witness for C9 (amended) on the sample jar at time 1000. -/
theorem c9_witness :
    jarLoad (jarSave jarSample false false 1000) false false 1000 =
      .ok (jarSample.filter (fun c => !c.discard)) ∧
    (∀ c ∈ jarSample, c.discard = false → c.value = none →
      (tabSplit (saveCookieLine c)).getD 5 ['*'] = [] ∧
      (tabSplit (saveCookieLine c)).getD 6 ['*'] = c.name) :=
  c9_roundtrip jarSample 1000 (by decide) (by decide) (by decide)

/-! ## Claim C8 -/

/-- Claim C8 counterexample: a stored cookie line with expiry field exactly
`0`, loaded with the default flags, is dropped by the Mozilla loader's
expiry filter (`0 <= now`) before the session-cookie fix-up ever runs: the
loaded jar is empty, so no cookie reports as a session cookie — the entry
was treated precisely as already expired. -/
theorem c8_counterexample :
    jarLoad [headerLine1, headerLine2,
      "example.com\tFALSE\t/\tFALSE\t0\ta\tb".toList] false false 1000 = .ok [] := by
  decide

/-- Claim C8 amended: when `load` is called with `ignore_expires = true`
(and any `ignore_discard`), a cookie line whose expiry field is exactly `0`
is loaded and then reinterpreted by the fix-up loop as a session cookie:
its expiry is null, its discard flag is true, and it does not report as
expired at any time.  With the default `ignore_expires = false` the same
line is instead dropped as already expired (the counterexample). -/
theorem c8_session_fixup (domain path name value : Str) (d0 : Char) (drest : Str)
    (secure : Bool) (idf : Bool) (now : Int)
    (hdom : domain = d0 :: drest)
    (hw : isWsChar d0 = false) (hh : d0 ≠ '#') (hdol : d0 ≠ '$')
    (hdc : cleanField domain = true) (hpc : cleanField path = true)
    (hnc : cleanField name = true) (hvc : cleanField value = true)
    (hname : name ≠ []) :
    jarLoad [headerLine1,
        tabJoin [domain,
          (if (domain : Str).head? == some '.' then "TRUE".toList else "FALSE".toList),
          path, (if secure then "TRUE".toList else "FALSE".toList), ['0'], name, value]]
      idf true now =
      .ok [⟨domain, path, secure, none, name, some value, true⟩] ∧
    ∀ t : Int, Cookie.isExpired ⟨domain, path, secure, none, name, some value, true⟩ t
      = false := by
  subst hdom
  have hnt : ∀ f ∈ [d0 :: drest,
      (if (d0 :: drest : Str).head? == some '.' then "TRUE".toList else "FALSE".toList),
      path, (if secure then "TRUE".toList else "FALSE".toList),
      (['0'] : Str), name, value], '\t' ∉ f := by
    intro f hf
    simp only [List.mem_cons, List.not_mem_nil, or_false] at hf
    rcases hf with rfl | rfl | rfl | rfl | rfl | rfl | rfl
    · exact cleanField_no_tab _ hdc
    · exact boolFlag_no_tab _
    · exact cleanField_no_tab _ hpc
    · exact boolFlag_no_tab _
    · decide
    · exact cleanField_no_tab _ hnc
    · exact cleanField_no_tab _ hvc
  constructor
  · unfold jarLoad
    have hprep : ([headerLine1,
        tabJoin [d0 :: drest,
          (if (d0 :: drest : Str).head? == some '.' then "TRUE".toList else "FALSE".toList),
          path, (if secure then "TRUE".toList else "FALSE".toList),
          ['0'], name, value]]).filterMap prepareLine =
        [headerLine1,
          tabJoin [d0 :: drest,
            (if (d0 :: drest : Str).head? == some '.' then "TRUE".toList else "FALSE".toList),
            path, (if secure then "TRUE".toList else "FALSE".toList), ['0'], name, value]] := by
      simp only [List.filterMap_cons, prepareLine_header1]
      rw [prepareLine_cookieLine d0 drest _ _ _ _ _ _ hw hh hnt (Or.inr (by decide))]
      rfl
    rw [hprep]
    have hzero : (['0'] : Str) = natToChars ((0 : Int)).toNat := by
      rw [natToChars]
      rfl
    have hstep : reallyLoad [headerLine1,
        tabJoin [d0 :: drest,
          (if (d0 :: drest : Str).head? == some '.' then "TRUE".toList else "FALSE".toList),
          path, (if secure then "TRUE".toList else "FALSE".toList), ['0'], name, value]]
        idf true now =
        List.foldlM (reallyLoadLine idf true now) []
          [tabJoin [d0 :: drest,
            (if (d0 :: drest : Str).head? == some '.' then "TRUE".toList else "FALSE".toList),
            path, (if secure then "TRUE".toList else "FALSE".toList), ['0'], name, value]] := by
      unfold reallyLoad
      rfl
    rw [hstep]
    simp only [List.foldlM_cons, List.foldlM_nil]
    rw [hzero]
    rw [reallyLoadLine_fields idf true now [] d0 drest path name value secure 0
      hw hh hdol (by rw [← hzero]; exact hnt) (by omega) (by rfl)]
    have hnameEmpty : name.isEmpty = false := by
      rcases hn : name with _ | ⟨n0, nrest⟩
      · exact absurd hn hname
      · rfl
    simp only [hnameEmpty, Bool.false_eq_true, if_false]
    rfl
  · intro t
    rfl

/-- Witness for C8 (amended): a concrete `0`-expiry line loaded with
`ignore_expires = true` becomes a session cookie. -/
theorem c8_witness :
    jarLoad [headerLine1,
        tabJoin ["example.com".toList,
          (if ("example.com".toList : Str).head? == some '.' then "TRUE".toList
            else "FALSE".toList),
          "/".toList, (if false then "TRUE".toList else "FALSE".toList), ['0'], ['a'], ['b']]]
      false true 1000 =
      .ok [⟨"example.com".toList, "/".toList, false, none, ['a'], some ['b'], true⟩] ∧
    ∀ t : Int, Cookie.isExpired
      ⟨"example.com".toList, "/".toList, false, none, ['a'], some ['b'], true⟩ t = false :=
  c8_session_fixup "example.com".toList "/".toList ['a'] ['b'] 'e' "xample.com".toList
    false false 1000 (by decide) (by decide) (by decide) (by decide) (by decide)
    (by decide) (by decide) (by decide) (by decide)
